import Mathlib

/-!
Verification of the TTS batch-download orchestrator
(`generateAudio.js` and its three variants `part_000`, `part_001`, `part_002`).

The embedding models:
  * `safeName` — the cache-key function (lowercase, strip characters outside
    the regex allow-set, truncate to 100 characters, append ".mp3");
  * the artifact store as an association list of (filename, size);
  * `download` — the per-line fetch of `generateAudio.js`/`part_001`
    (existence-only skip) and `download000` — the `part_000` variant
    (existence and non-zero size skip);
  * `processLine` — the per-line retry loop (429 retries after `retryWait`,
    a message containing "HTTP 500" retries after 2 minutes, anything else is
    terminal and appended to the failure log);
  * `runMain` — the main loop of `generateAudio.js`/`part_000` (filter lines
    whose artifact already exists, then process each remaining line);
  * `run001` / `dedupDispatch` — the `part_001` main loop with its
    trim + lowercase seen-set deduplication;
  * `fetchAudio2` / `groupLoop` — the `part_002` (game4) variant: a
    resolve-only fetch with attempt-scaled 429 retry, and the
    slice-by-concurrency group loop;
  * a transition system for the bounded-concurrency queue.

Concurrency is modelled by sequentialising the per-line tasks (claims about
schedules quantify over an abstract completion-count observation instead).
-/

namespace TTSGen

/-! ### Settings (from the SETTINGS blocks of the sources) -/

def concurrency : Nat := 3
def baseDelay : Nat := 10000
def retryWait : Nat := 300000
/-- The 2-minute wait hard-coded in the "HTTP 500" branch of the retry loop. -/
def serverWait : Nat := 120000
/-- `part_002` settings: 8 seconds between groups, 5-minute 429 unit wait. -/
def baseDelay4 : Nat := 8000
def retryWait4 : Nat := 300000

/-! ### Cache-key function `safeName` -/

/-- Models JavaScript `String.prototype.toLowerCase` for the character ranges
the program manipulates (ASCII letters; kana, CJK and fullwidth characters are
uncased and map to themselves). -/
def jsToLower (s : String) : String := String.mk (s.toList.map Char.toLower)

/-- Models JavaScript `String.prototype.trim`: drop whitespace from both
ends.  (Written over the character list so that proofs can evaluate it.) -/
def jsTrim (s : String) : String :=
  String.mk (((s.toList.dropWhile Char.isWhitespace).reverse.dropWhile
    Char.isWhitespace).reverse)

/-- The allow-set of the regex
`[^\wぁ-んァ-ン一-龯０-９a-zA-Z0-9]` in `safeName`: a character survives the
`.replace(..., "")` exactly when this predicate holds.  The literal class
bounds are ぁ = U+3041, ん = U+3093, ァ = U+30A1, ン = U+30F3, 一 = U+4E00,
龯 = U+9FAF, ０ = U+FF10, ９ = U+FF19. -/
def isAllowedChar (c : Char) : Bool :=
  (c.isAlpha || c.isDigit || c == '_')
  || (0x3041 ≤ c.toNat && c.toNat ≤ 0x3093)
  || (0x30A1 ≤ c.toNat && c.toNat ≤ 0x30F3)
  || (0x4E00 ≤ c.toNat && c.toNat ≤ 0x9FAF)
  || (0xFF10 ≤ c.toNat && c.toNat ≤ 0xFF19)
  || (('a' ≤ c && c ≤ 'z') || ('A' ≤ c && c ≤ 'Z'))
  || ('0' ≤ c && c ≤ '9')

/-- `safeName(t)`: lowercase, remove every character outside the allow-set,
truncate to 100 characters, append ".mp3".  (`String.prototype.substring`
counts UTF-16 units, but every allowed character is in the basic multilingual
plane, so counting characters is equivalent.) -/
def safeName (t : String) : String :=
  String.mk (((jsToLower t).toList.filter isAllowedChar).take 100) ++ ".mp3"

/-! ### Artifact store -/

/-- The output directory, as an association list of (filename, size in bytes).
`writeFile` models `fs.createWriteStream` creation / piping (truncate or
create, then the bytes written so far), `unlinkFile` models `fs.unlink`. -/
abbrev Store := List (String × Nat)

def existsFile (st : Store) (name : String) : Bool :=
  st.any (fun e => e.1 == name)

def statSize (st : Store) (name : String) : Nat :=
  (((st.find? (fun e => e.1 == name)).map (fun e => e.2)).getD 0)

def writeFile (st : Store) (name : String) (size : Nat) : Store :=
  (name, size) :: st.filter (fun e => e.1 != name)

def unlinkFile (st : Store) (name : String) : Store :=
  st.filter (fun e => e.1 != name)

/-! ### Remote fetch outcomes (the response contract of the TTS endpoint) -/

/-- One HTTP attempt: either a response with a status code and a body of
`size` bytes, or a request-level network error carrying a message. -/
inductive FetchResult where
  | response (code : Nat) (size : Nat)
  | netError (msg : String)
deriving DecidableEq

/-! ### `download` (generateAudio.js and part_001) -/

/-- The settled state of the `download` promise: `skipped` and `ok` are
resolutions, `rejected` carries the rejection value (`"HTTP " + statusCode`
or the network error message). -/
inductive DlResult where
  | skipped
  | ok
  | rejected (msg : String)
deriving DecidableEq

/-- `download(text)` from `generateAudio.js` (and `part_001`), evaluated
against one fetch outcome `r`: skip if the artifact file exists; otherwise
create the stream (an empty file), then on status 200 pipe the body and
resolve, on any other status close and unlink the file before rejecting
"HTTP code", and on a network error unlink before rejecting the message. -/
def download (text : String) (r : FetchResult) (st : Store) : DlResult × Store :=
  let fileName := safeName text
  if existsFile st fileName then (.skipped, st)
  else
    let st1 := writeFile st fileName 0
    match r with
    | .response code size =>
      if code == 200 then (.ok, writeFile st1 fileName size)
      else (.rejected ("HTTP " ++ Nat.repr code), unlinkFile st1 fileName)
    | .netError msg => (.rejected msg, unlinkFile st1 fileName)

/-- `download(text)` from `part_000`: identical except that the skip
condition also requires the existing file to be non-empty
(`fs.statSync(filePath).size > 0`). -/
def download000 (text : String) (r : FetchResult) (st : Store) : DlResult × Store :=
  let fileName := safeName text
  if existsFile st fileName && decide (0 < statSize st fileName) then (.skipped, st)
  else
    let st1 := writeFile st fileName 0
    match r with
    | .response code size =>
      if code == 200 then (.ok, writeFile st1 fileName size)
      else (.rejected ("HTTP " ++ Nat.repr code), unlinkFile st1 fileName)
    | .netError msg => (.rejected msg, unlinkFile st1 fileName)

/-! ### Error classification and the per-line retry loop -/

/-- Substring containment on character lists (`pat` occurs inside the list). -/
def containsSub (pat : List Char) : List Char → Bool
  | [] => pat.isEmpty
  | c :: rest => pat.isPrefixOf (c :: rest) || containsSub pat rest

/-- `msg.includes(pat)` from JavaScript. -/
def includesStr (msg pat : String) : Bool := containsSub pat.toList msg.toList

/-- The catch-branch of the retry loop: a rejection message containing
"HTTP 429" waits `retryWait`, else one containing "HTTP 500" waits 2 minutes
(both then retry); anything else is terminal (`none`). -/
def classify (msg : String) : Option Nat :=
  if includesStr msg "HTTP 429" then some retryWait
  else if includesStr msg "HTTP 500" then some serverWait
  else none

/-- How the per-line loop ended: `completed` (the `done = true` success
branch), `failed` (terminal error, logged), or `exhausted` — the modelled
attempt trace ran out while the line was still retrying (the source loop
would keep retrying indefinitely). -/
inductive LineResult where
  | completed
  | failed
  | exhausted
deriving DecidableEq

/-- Observable effects of running the per-line retry loop. -/
structure LineRun where
  result : LineResult
  store : Store
  failLog : List String
  /-- number of HTTP requests issued (skipped resolutions issue none) -/
  fetches : Nat
  /-- backoff waits performed, in order -/
  waits : List Nat
deriving DecidableEq

/-- The `while (!done)` retry loop body of `generateAudio.js`
(`part_000`/`part_001` are textually identical): each iteration awaits
`download`; a rejection is classified and either waits and retries or
appends the line to the failure log and stops. The list supplies the fetch
outcome of each successive attempt. -/
def processLine (text : String) : List FetchResult → Store → List String → LineRun
  | [], st, log => ⟨.exhausted, st, log, 0, []⟩
  | r :: rest, st, log =>
    match download text r st with
    | (.skipped, st1) => ⟨.completed, st1, log, 0, []⟩
    | (.ok, st1) => ⟨.completed, st1, log, 1, []⟩
    | (.rejected msg, st1) =>
      match classify msg with
      | some w =>
        let k := processLine text rest st1 log
        ⟨k.result, k.store, k.failLog, k.fetches + 1, w :: k.waits⟩
      | none => ⟨.failed, st1, log ++ [text], 1, []⟩

/-! ### Main loops -/

/-- Run-wide state: the artifact store, the failure log (truncated to empty
at startup by `fs.writeFileSync(failLog, "")`), and the total number of HTTP
requests issued. -/
structure RunState where
  store : Store
  failLog : List String
  fetches : Nat
deriving DecidableEq

/-- Sequentialised task loop: process each dispatched line in order,
threading the store and failure log. -/
def runLines (oracle : String → List FetchResult) : List String → RunState → RunState
  | [], s => s
  | l :: rest, s =>
    let r := processLine l (oracle l) s.store s.failLog
    runLines oracle rest ⟨r.store, r.failLog, s.fetches + r.fetches⟩

/-- The main body of `generateAudio.js` / `part_000`: keep only the lines
with no artifact yet (`newLines` filter), then run the tasks. -/
def runMain (oracle : String → List FetchResult) (lines : List String)
    (st0 : Store) : RunState :=
  let newLines := lines.filter (fun l => !existsFile st0 (safeName l))
  runLines oracle newLines ⟨st0, [], 0⟩

/-- The `part_001` dispatch loop: trim each line, lowercase it as the
seen-set key, skip it if the key was already seen, otherwise record the key
and enqueue the trimmed line.  Returns the lines actually enqueued, in
order. -/
def dedupDispatch (seen : List String) : List String → List String
  | [] => []
  | line :: rest =>
    let clean := jsTrim line
    let key := jsToLower clean
    if seen.contains key then dedupDispatch seen rest
    else clean :: dedupDispatch (key :: seen) rest

/-- The normalized key `part_001` deduplicates on: `line.trim().toLowerCase()`. -/
def normKey (line : String) : String := jsToLower (jsTrim line)

/-- The `part_001` main loop: no pre-filter against the store; the seen-set
deduplication decides what is enqueued, and `download` itself skips existing
artifacts at execution time. -/
def run001 (oracle : String → List FetchResult) (lines : List String)
    (st0 : Store) : RunState :=
  runLines oracle (dedupDispatch [] lines) ⟨st0, [], 0⟩

/-! ### The `part_002` (game4) variant -/

/-- Settled state of a `part_002` promise.  `rejected` is included so that
"the promise never rejects" is expressible; the source executor only ever
calls `resolve`. -/
inductive PResult where
  | resolved
  | rejected (msg : String)
deriving DecidableEq

/-- Observable effects of one `fetchAudio` call in `part_002`.
`result = none` means the modelled attempt trace ran out while a 429 retry
timer was still pending (the promise has not settled yet).  `failAppends`
records every failure-log append performed: the game4 variant opens no
failure log, so the source performs none. -/
structure FA2Run where
  result : Option PResult
  store : Store
  failAppends : List String
  waits : List Nat
deriving DecidableEq

/-- `fetchAudio(text, attempt)` from `part_002`: the file path is the raw
text plus ".mp3" (no sanitisation in this variant); an existing file
resolves immediately; a 429 schedules `fetchAudio(text, attempt + 1)` after
`retryWait * attempt` and resolves when the retry resolves; any other
non-200 status resolves (logging only to the console); a 200 streams the
body and resolves; a request error resolves.  The list supplies the outcome
of each successive attempt. -/
def fetchAudio2 (text : String) : List FetchResult → Nat → Store → FA2Run
  | [], _, st => ⟨none, st, [], []⟩
  | r :: rest, attempt, st =>
    let filePath := text ++ ".mp3"
    if existsFile st filePath then ⟨some .resolved, st, [], []⟩
    else
      match r with
      | .response code size =>
        if code == 429 then
          let k := fetchAudio2 text rest (attempt + 1) st
          ⟨k.result, k.store, k.failAppends, retryWait4 * attempt :: k.waits⟩
        else if code != 200 then ⟨some .resolved, st, [], []⟩
        else ⟨some .resolved, writeFile st filePath size, [], []⟩
      | .netError _ => ⟨some .resolved, st, [], []⟩

/-- The `part_002` main loop's grouping: `allTexts.slice(index, index +
concurrency)` with `index += concurrency` until the list is exhausted.  Each
group is awaited with `Promise.all` before the next group starts. -/
def groupLoop (l : List String) : List (List String) :=
  if l = [] then []
  else l.take concurrency :: groupLoop (l.drop concurrency)
termination_by l.length
decreasing_by
  have hl : 0 < l.length := List.length_pos.mpr (by assumption)
  simp only [List.length_drop, concurrency]
  omega

/-! ### Batch pacing (the `count % 50` check of the queue variants) -/

/-- The pacing pauses performed by the dispatch loop of
`generateAudio.js` / `part_000` / `part_001`: after enqueueing the i-th
line the loop tests `count % 50 === 0`, where `count` is the shared counter
incremented by task *completions*.  `countAt i` is the value that counter
holds when the i-th check runs (it depends on the schedule, so it is a
parameter); the function returns how many checks pause. -/
def pacingPauses (numLines : Nat) (countAt : Nat → Nat) : Nat :=
  (List.range numLines).countP (fun i => countAt i % 50 == 0)

/-- The pacing rule the specification describes: pause exactly after every
50th *dispatched* line, independent of completions. -/
def dispatchCountPauses (numLines : Nat) : Nat :=
  (List.range numLines).countP (fun i => (i + 1) % 50 == 0)

/-! ### Bounded-concurrency queue (admission discipline) -/

/-- Abstract state of the task pool: tasks not yet admitted, tasks with an
in-flight fetch, and finished tasks. -/
structure QState where
  pending : Nat
  running : Nat
  done : Nat
deriving DecidableEq

/-- One scheduler step: `start` admits a pending task only while fewer than
`concurrency` are in flight (the admission contract of the queue the
sources construct with that limit); `complete` finishes an in-flight task. -/
inductive QStep : QState → QState → Prop
  | start (p r d : Nat) : r < concurrency → 0 < p →
      QStep ⟨p, r, d⟩ ⟨p - 1, r + 1, d⟩
  | complete (p r d : Nat) : 0 < r →
      QStep ⟨p, r, d⟩ ⟨p, r - 1, d + 1⟩

/-- States reachable from the initial state (`n` tasks enqueued, none
running). -/
def QReach (n : Nat) (s : QState) : Prop :=
  Relation.ReflTransGen QStep ⟨n, 0, 0⟩ s

/-! ### The cache-key transform as the specification words it (claim C4) -/

/-- The allow-set exactly as claim C4 words it: word characters, hiragana
U+3041 to U+309F, katakana U+30A1 to U+30FC, CJK unified ideographs U+4E00
to U+9FAF, fullwidth digits U+FF10 to U+FF19, ASCII letters, ASCII digits.
Stated from the claim so it can be compared with `isAllowedChar`. -/
def claimAllowedChar (c : Char) : Bool :=
  (c.isAlpha || c.isDigit || c == '_')
  || (0x3041 ≤ c.toNat && c.toNat ≤ 0x309F)
  || (0x30A1 ≤ c.toNat && c.toNat ≤ 0x30FC)
  || (0x4E00 ≤ c.toNat && c.toNat ≤ 0x9FAF)
  || (0xFF10 ≤ c.toNat && c.toNat ≤ 0xFF19)
  || (('a' ≤ c && c ≤ 'z') || ('A' ≤ c && c ≤ 'Z'))
  || ('0' ≤ c && c ≤ '9')

/-- The cache-key transform exactly as claim C4 states it. -/
def claimCacheKey (t : String) : String :=
  String.mk (((jsToLower t).toList.filter claimAllowedChar).take 100) ++ ".mp3"

/-- The claim C4 transform with the two kana upper bounds corrected to what
the regex literals denote: hiragana up to U+3093 (ん) and katakana up to
U+30F3 (ン). -/
def amendedAllowedChar (c : Char) : Bool :=
  (c.isAlpha || c.isDigit || c == '_')
  || (0x3041 ≤ c.toNat && c.toNat ≤ 0x3093)
  || (0x30A1 ≤ c.toNat && c.toNat ≤ 0x30F3)
  || (0x4E00 ≤ c.toNat && c.toNat ≤ 0x9FAF)
  || (0xFF10 ≤ c.toNat && c.toNat ≤ 0xFF19)
  || (('a' ≤ c && c ≤ 'z') || ('A' ≤ c && c ≤ 'Z'))
  || ('0' ≤ c && c ≤ '9')

/-- The amended claim C4 transform. -/
def amendedCacheKey (t : String) : String :=
  String.mk (((jsToLower t).toList.filter amendedAllowedChar).take 100) ++ ".mp3"

/-- Tests whether a fetch outcome is an HTTP 429 response. -/
def is429 : FetchResult → Bool
  | .response 429 _ => true
  | _ => false

/-- A fetch capability that always answers 200 with a 7-byte body (used to
evaluate the model on concrete runs). -/
def succOracle : String → List FetchResult := fun _ => [.response 200 7]

/-- A fetch capability answering 404 for the line "bad" and success
otherwise (used to evaluate the model on concrete runs). -/
def oracle404 : String → List FetchResult :=
  fun t => if t = "bad" then [.response 404 0] else [.response 200 3]

/-! ## Lemmas about the artifact store -/

theorem existsFile_writeFile (st : Store) (n m : String) (sz : Nat) :
    existsFile (writeFile st n sz) m = (n == m || existsFile st m) := by
  by_cases h : n = m
  · subst h
    simp [existsFile, writeFile]
  · simp only [existsFile, writeFile, List.any_cons, List.any_filter]
    have hb : (n == m) = false := by simp [h]
    rw [hb]
    simp only [Bool.false_or]
    have hf : (fun e : String × Nat => (e.1 != n) && (e.1 == m))
        = fun e : String × Nat => e.1 == m := by
      funext e
      by_cases he : e.1 = n
      · simp [he, h]
      · simp [he]
    rw [hf]

theorem existsFile_unlinkFile (st : Store) (n m : String) :
    existsFile (unlinkFile st n) m = (!(n == m) && existsFile st m) := by
  by_cases h : n = m
  · subst h
    simp only [existsFile, unlinkFile, List.any_filter, beq_self_eq_true,
      Bool.not_true, Bool.false_and]
    apply List.any_eq_false.mpr
    intro e he
    by_cases hx : e.1 = n <;> simp [hx]
  · simp only [existsFile, unlinkFile, List.any_filter]
    have hb : (n == m) = false := by simp [h]
    rw [hb]
    simp only [Bool.not_false, Bool.true_and]
    have hf : (fun e : String × Nat => (e.1 != n) && (e.1 == m))
        = fun e : String × Nat => e.1 == m := by
      funext e
      by_cases he : e.1 = n
      · simp [he, h]
      · simp [he]
    rw [hf]

/-! ## Lemmas about `download` -/

theorem download_skip (text : String) (r : FetchResult) (st : Store)
    (h : existsFile st (safeName text) = true) :
    download text r st = (.skipped, st) := by
  simp [download, h]

theorem download_ok (text : String) (sz : Nat) (st : Store)
    (h : existsFile st (safeName text) = false) :
    download text (.response 200 sz) st
      = (.ok, writeFile (writeFile st (safeName text) 0) (safeName text) sz) := by
  simp [download, h]

theorem download_status (text : String) (c sz : Nat) (st : Store)
    (h : existsFile st (safeName text) = false) (hc : c ≠ 200) :
    download text (.response c sz) st
      = (.rejected ("HTTP " ++ Nat.repr c),
         unlinkFile (writeFile st (safeName text) 0) (safeName text)) := by
  simp [download, h, hc]

theorem download_net (text msg : String) (st : Store)
    (h : existsFile st (safeName text) = false) :
    download text (.netError msg) st
      = (.rejected msg,
         unlinkFile (writeFile st (safeName text) 0) (safeName text)) := by
  simp [download, h]

/-- `download` touches no file other than the one named by the line's cache
key. -/
theorem download_store_other (text : String) (r : FetchResult) (st : Store)
    (m : String) (hm : m ≠ safeName text) :
    existsFile (download text r st).2 m = existsFile st m := by
  have hb : (safeName text == m) = false := by
    rw [beq_eq_false_iff_ne]
    exact Ne.symm hm
  by_cases h : existsFile st (safeName text) = true
  · rw [download_skip text r st h]
  · rw [Bool.not_eq_true] at h
    cases r with
    | response code size =>
      by_cases hc : code = 200
      · subst hc
        rw [download_ok text size st h]
        simp [existsFile_writeFile, hb]
      · rw [download_status text code size st h hc]
        simp [existsFile_unlinkFile, existsFile_writeFile, hb]
    | netError msg =>
      rw [download_net text msg st h]
      simp [existsFile_unlinkFile, existsFile_writeFile, hb]

/-! ## Lemmas about the per-line retry loop -/

/-- The retry loop appends at most its own line to the failure log. -/
theorem processLine_failLog (text : String) (atts : List FetchResult)
    (st : Store) (log : List String) :
    (processLine text atts st log).failLog = log
    ∨ (processLine text atts st log).failLog = log ++ [text] := by
  induction atts generalizing st with
  | nil => exact Or.inl rfl
  | cons r rest ih =>
    rcases hd : download text r st with ⟨res, st1⟩
    cases res with
    | skipped => simp [processLine, hd]
    | ok => simp [processLine, hd]
    | rejected msg =>
      cases hc : classify msg with
      | some w =>
        simp only [processLine, hd, hc]
        exact ih st1
      | none => simp [processLine, hd, hc]

/-- The retry loop touches no file other than the one named by its line's
cache key. -/
theorem processLine_store_other (text : String) (atts : List FetchResult)
    (st : Store) (log : List String) (m : String) (hm : m ≠ safeName text) :
    existsFile (processLine text atts st log).store m = existsFile st m := by
  induction atts generalizing st with
  | nil => rfl
  | cons r rest ih =>
    have hother := download_store_other text r st m hm
    rcases hd : download text r st with ⟨res, st1⟩
    rw [hd] at hother
    cases res with
    | skipped => simpa [processLine, hd] using hother
    | ok => simpa [processLine, hd] using hother
    | rejected msg =>
      cases hc : classify msg with
      | some w =>
        simp only [processLine, hd, hc]
        exact (ih st1).trans hother
      | none => simpa [processLine, hd, hc] using hother

/-! ## Lemmas about runs with an all-success fetch capability -/

/-- A line whose single attempt succeeds leaves its own artifact present and
preserves every file that was already present. -/
theorem processLine_success_store (text : String) (sz : Nat) (st : Store)
    (log : List String) :
    existsFile (processLine text [.response 200 sz] st log).store
        (safeName text) = true
    ∧ ∀ m, existsFile st m = true →
        existsFile (processLine text [.response 200 sz] st log).store m = true := by
  by_cases h : existsFile st (safeName text) = true
  · have hd := download_skip text (.response 200 sz) st h
    constructor
    · simpa [processLine, hd] using h
    · intro m hme
      simpa [processLine, hd] using hme
  · rw [Bool.not_eq_true] at h
    have hd := download_ok text sz st h
    constructor
    · simp [processLine, hd, existsFile_writeFile]
    · intro m hme
      simp [processLine, hd, existsFile_writeFile, hme]

theorem runLines_success_mono (oracle : String → List FetchResult)
    (hsucc : ∀ l, ∃ sz, oracle l = [.response 200 sz]) :
    ∀ (ls : List String) (s : RunState) (m : String),
      existsFile s.store m = true →
      existsFile (runLines oracle ls s).store m = true := by
  intro ls
  induction ls with
  | nil =>
    intro s m hm
    exact hm
  | cons l rest ih =>
    intro s m hm
    rcases hsucc l with ⟨sz, hsz⟩
    rw [runLines, hsz]
    exact ih _ m ((processLine_success_store l sz s.store s.failLog).2 m hm)

theorem runLines_success_covers (oracle : String → List FetchResult)
    (hsucc : ∀ l, ∃ sz, oracle l = [.response 200 sz]) :
    ∀ (ls : List String) (s : RunState) (l : String), l ∈ ls →
      existsFile (runLines oracle ls s).store (safeName l) = true := by
  intro ls
  induction ls with
  | nil =>
    intro s l hl
    cases hl
  | cons a rest ih =>
    intro s l hl
    rcases hsucc a with ⟨sz, hsz⟩
    rw [runLines, hsz]
    rcases List.mem_cons.mp hl with rfl | hl
    · exact runLines_success_mono oracle hsucc rest _ _
        (processLine_success_store l sz s.store s.failLog).1
    · exact ih _ l hl

/-! ## Lemmas about a line answered with a terminal 404 -/

theorem classify_404 : classify ("HTTP " ++ Nat.repr 404) = none := by decide

theorem classify_500 : classify ("HTTP " ++ Nat.repr 500) = some serverWait := by
  decide

/-- A line with no artifact whose fetch answers 404: one request, terminal
failure, logged once, file removed, no retry wait. -/
theorem processLine_404 (text : String) (st : Store) (log : List String)
    (h : existsFile st (safeName text) = false) :
    processLine text [.response 404 0] st log
      = ⟨.failed, unlinkFile (writeFile st (safeName text) 0) (safeName text),
          log ++ [text], 1, []⟩ := by
  have hd := download_status text 404 0 st h (by decide)
  simp [processLine, hd, classify_404]

/-- Running the task loop over lines whose fetch capability answers 404 for
`text`: the failure log gains one copy of `text` per occurrence and the
artifact for `text` stays absent, provided no other line shares its cache
key. -/
theorem runLines_404 (oracle : String → List FetchResult) (text : String)
    (hor : oracle text = [.response 404 0]) :
    ∀ (ls : List String) (s : RunState),
      existsFile s.store (safeName text) = false →
      (∀ l ∈ ls, l ≠ text → safeName l ≠ safeName text) →
      (runLines oracle ls s).failLog.count text
          = s.failLog.count text + ls.count text
      ∧ existsFile (runLines oracle ls s).store (safeName text) = false := by
  intro ls
  induction ls with
  | nil =>
    intro s hst hkeys
    exact ⟨by simp [runLines], hst⟩
  | cons l rest ih =>
    intro s hst hkeys
    by_cases hl : l = text
    · subst hl
      rw [runLines, hor, processLine_404 l s.store s.failLog hst]
      dsimp only
      have hst1 : existsFile
          (unlinkFile (writeFile s.store (safeName l) 0) (safeName l))
          (safeName l) = false := by
        simp [existsFile_unlinkFile]
      have hrest := ih
        ⟨unlinkFile (writeFile s.store (safeName l) 0) (safeName l),
          s.failLog ++ [l], s.fetches + 1⟩
        hst1 (fun x hx => hkeys x (List.mem_cons_of_mem l hx))
      rcases hrest with ⟨hcount, hstore⟩
      refine ⟨?_, hstore⟩
      rw [hcount]
      simp [List.count_cons]
      omega
    · have hkey : safeName l ≠ safeName text := hkeys l (List.mem_cons_self l rest) hl
      rw [runLines]
      have hstore' : existsFile
          (processLine l (oracle l) s.store s.failLog).store (safeName text)
          = false := by
        rw [processLine_store_other l (oracle l) s.store s.failLog (safeName text)
          (Ne.symm hkey)]
        exact hst
      have hlog := processLine_failLog l (oracle l) s.store s.failLog
      have hrest := ih
        ⟨(processLine l (oracle l) s.store s.failLog).store,
          (processLine l (oracle l) s.store s.failLog).failLog,
          s.fetches + (processLine l (oracle l) s.store s.failLog).fetches⟩
        hstore' (fun x hx => hkeys x (List.mem_cons_of_mem l hx))
      rcases hrest with ⟨hcount, hstore⟩
      refine ⟨?_, hstore⟩
      rw [hcount]
      have hcnt : (processLine l (oracle l) s.store s.failLog).failLog.count text
          = s.failLog.count text := by
        rcases hlog with hlog | hlog
        · rw [hlog]
        · rw [hlog]
          simp [List.count_singleton, List.count_cons, hl, Ne.symm hl]
      rw [hcnt]
      simp [List.count_cons, hl]

/-! ## Lemmas about the `part_001` seen-set deduplication -/

/-- The lines the dispatch loop enqueues have pairwise distinct normalized
keys, all of them outside the initial seen set. -/
theorem dedupDispatch_nodup (lines : List String) :
    ∀ seen : List String,
      ((dedupDispatch seen lines).map jsToLower).Nodup
      ∧ ∀ k ∈ (dedupDispatch seen lines).map jsToLower, k ∉ seen := by
  induction lines with
  | nil =>
    intro seen
    simp [dedupDispatch]
  | cons l rest ih =>
    intro seen
    by_cases h : seen.contains (jsToLower (jsTrim l)) = true
    · rw [dedupDispatch]
      simp only [h, if_true]
      exact ih seen
    · rw [dedupDispatch]
      simp only [h, if_false, Bool.false_eq_true]
      have hmem : jsToLower (jsTrim l) ∉ seen := by
        intro hc
        exact absurd (List.elem_eq_true_of_mem hc) h
      rcases ih (jsToLower (jsTrim l) :: seen) with ⟨hnd, hout⟩
      constructor
      · rw [List.map_cons]
        refine List.nodup_cons.mpr ⟨?_, hnd⟩
        intro hc
        exact (hout _ hc) (List.mem_cons_self _ _)
      · intro k hk
        rw [List.map_cons] at hk
        rcases List.mem_cons.mp hk with rfl | hk
        · exact hmem
        · intro hc
          exact (hout k hk) (List.mem_cons_of_mem _ hc)

/-- At most one entry of a list maps to any given key once the mapped list
has no duplicates. -/
theorem countP_le_one_of_nodup_map (L : List String) (f : String → String)
    (h : (L.map f).Nodup) (K : String) :
    L.countP (fun l => f l == K) ≤ 1 := by
  have h1 : L.countP (fun l => f l == K) = (L.map f).countP (fun x => x == K) := by
    rw [List.countP_map]
    rfl
  rw [h1]
  have h2 : (L.map f).countP (fun x => x == K) = (L.map f).count K := rfl
  rw [h2]
  exact List.nodup_iff_count_le_one.mp h K

/-- Each processed line contributes at most one matching entry to the
failure log. -/
theorem runLines_countP_le (oracle : String → List FetchResult)
    (p : String → Bool) :
    ∀ (ls : List String) (s : RunState),
      (runLines oracle ls s).failLog.countP p
        ≤ s.failLog.countP p + ls.countP p := by
  intro ls
  induction ls with
  | nil =>
    intro s
    simp [runLines]
  | cons l rest ih =>
    intro s
    rw [runLines]
    have hlog := processLine_failLog l (oracle l) s.store s.failLog
    have hle := ih ⟨(processLine l (oracle l) s.store s.failLog).store,
      (processLine l (oracle l) s.store s.failLog).failLog,
      s.fetches + (processLine l (oracle l) s.store s.failLog).fetches⟩
    dsimp only at hle
    refine le_trans hle ?_
    have hcnt : (processLine l (oracle l) s.store s.failLog).failLog.countP p
        ≤ s.failLog.countP p + (if p l then 1 else 0) := by
      rcases hlog with hlog | hlog <;>
        · rw [hlog]
          simp [List.countP_cons]
    rw [List.countP_cons]
    omega

/-! ## Lemmas about the `part_002` group loop -/

theorem groupLoop_length_le (k : Nat) :
    ∀ l : List String, l.length ≤ k →
      ∀ g ∈ groupLoop l, g.length ≤ concurrency := by
  induction k with
  | zero =>
    intro l hl g hg
    have : l = [] := List.eq_nil_of_length_eq_zero (Nat.le_zero.mp hl)
    subst this
    rw [groupLoop] at hg
    simp at hg
  | succ k ih =>
    intro l hl g hg
    rw [groupLoop] at hg
    by_cases h : l = []
    · simp [h] at hg
    · simp only [h, if_false] at hg
      rcases List.mem_cons.mp hg with rfl | hg
      · exact le_trans (List.length_take_le _ _) le_rfl
      · refine ih (l.drop concurrency) ?_ g hg
        have hpos : 0 < l.length := List.length_pos.mpr h
        rw [List.length_drop]
        simp only [concurrency]
        omega

/-! ## Claim theorems -/

/-- C4 counterexample: the claim's allow-set keeps the katakana prolonged
sound mark U+30FC (claimed range U+30A1 to U+30FC), but the source regex
class ends at ン U+30F3 and removes it, so the cache key of "ー" differs
from the claim's transform. -/
theorem safeName_claimC4_counterexample :
    safeName "ー" = ".mp3"
    ∧ claimCacheKey "ー" = "ー.mp3"
    ∧ safeName "ー" ≠ claimCacheKey "ー" := by
  refine ⟨by decide, by decide, by decide⟩

/-- C4 (amended): `safeName` is deterministic, total, and equals the claimed
transform once the kana ranges are corrected to hiragana U+3041 to U+3093
and katakana U+30A1 to U+30F3; the result is at most 100 characters plus the
4-character ".mp3" suffix. -/
theorem safeName_matches_amended_transform (t : String) :
    safeName t = amendedCacheKey t ∧ (safeName t).length ≤ 104 := by
  constructor
  · rfl
  · show (String.mk (((jsToLower t).toList.filter isAllowedChar).take 100)
      ++ ".mp3").length ≤ 104
    rw [String.length_append]
    have hmk : (String.mk (((jsToLower t).toList.filter isAllowedChar).take 100)).length
        = (((jsToLower t).toList.filter isAllowedChar).take 100).length := rfl
    rw [hmk]
    have := List.length_take_le 100 ((jsToLower t).toList.filter isAllowedChar)
    have hs : (".mp3" : String).length = 4 := by decide
    omega

/-- C8 (code bug): the queue variants gate the batch pause on the shared
completion counter, not the dispatch count.  With two lines dispatched
before any download completes (the counter reads 0 at both checks) the loop
pauses twice, whereas a pause after every 50th dispatched line would pause
zero times. -/
theorem pacing_gated_on_completions :
    pacingPauses 2 (fun _ => 0) = 2 ∧ dispatchCountPauses 2 = 0 := by
  decide

/-- C9: a `download` call made while the artifact file already exists (for
`part_000`, exists and is non-empty) resolves "skipped" with the store
untouched, and the result does not depend on the fetch outcome at all (no
HTTP request is consulted). -/
theorem download_recheck_skips (text : String) (st : Store) :
    (∀ r : FetchResult, existsFile st (safeName text) = true →
        download text r st = (DlResult.skipped, st))
    ∧ (∀ r : FetchResult, existsFile st (safeName text) = true →
        0 < statSize st (safeName text) →
        download000 text r st = (DlResult.skipped, st)) := by
  constructor
  · intro r h
    exact download_skip text r st h
  · intro r h hsz
    simp [download000, h, hsz]

theorem download_recheck_skips_witness :
    existsFile [(safeName "Test.", 5)] (safeName "Test.") = true
    ∧ 0 < statSize [(safeName "Test.", 5)] (safeName "Test.")
    ∧ download "Test." (.response 404 0) [(safeName "Test.", 5)]
        = (DlResult.skipped, [(safeName "Test.", 5)])
    ∧ download000 "Test." (.netError "boom") [(safeName "Test.", 5)]
        = (DlResult.skipped, [(safeName "Test.", 5)]) := by
  refine ⟨by decide, by decide, ?_, ?_⟩
  · exact (download_recheck_skips "Test." [(safeName "Test.", 5)]).1
      (.response 404 0) (by decide)
  · exact (download_recheck_skips "Test." [(safeName "Test.", 5)]).2
      (.netError "boom") (by decide) (by decide)

/-- C1 counterexample: HTTP 503 is a 5xx status, yet the retry loop treats
it as terminal — one fetch, no backoff wait, and the line is written to the
failure log, contradicting "retries indefinitely, never writes a Failure
Record". -/
theorem http503_terminal_and_logged :
    (500 ≤ 503 ∧ 503 < 600)
    ∧ processLine "x" [.response 503 0] [] []
        = ⟨.failed, [], ["x"], 1, []⟩ := by
  refine ⟨by omega, by decide⟩

set_option maxRecDepth 10000 in
/-- Statuses 501-599 all carry rejection messages without the substrings
"HTTP 429" and "HTTP 500", so the retry loop classifies them as terminal. -/
theorem classify_5xx_other_none :
    ∀ c ∈ List.range 600, 500 ≤ c → c ≠ 500 →
      classify ("HTTP " ++ Nat.repr c) = none := by
  decide

/-- C1 (amended): in the queue variants only the exact status 500 is
classified retryable — it waits the 2-minute backoff and re-enters the loop
indefinitely, with no failure record and one request per attempt — while
every other 5xx status (501-599) is terminal: a single fetch, the line
appended to the failure log, no wait.  In the game4 variant a 500 is not
retried at all: `fetchAudio` resolves at once with the store untouched. -/
theorem server_backoff_only_500 :
    (∀ (text : String) (st : Store) (log : List String) (n : Nat),
        existsFile st (safeName text) = false →
        (processLine text (List.replicate n (.response 500 0)) st log).result
            = LineResult.exhausted
        ∧ (processLine text (List.replicate n (.response 500 0)) st log).failLog
            = log
        ∧ (processLine text (List.replicate n (.response 500 0)) st log).waits
            = List.replicate n serverWait
        ∧ (processLine text (List.replicate n (.response 500 0)) st log).fetches
            = n)
    ∧ (∀ c ∈ List.range 600, 500 ≤ c → c ≠ 500 →
        ∀ (text : String) (st : Store) (log : List String),
          existsFile st (safeName text) = false →
          processLine text [.response c 0] st log
            = ⟨.failed,
                unlinkFile (writeFile st (safeName text) 0) (safeName text),
                log ++ [text], 1, []⟩)
    ∧ (∀ (text : String) (a : Nat) (st : Store),
        fetchAudio2 text [.response 500 0] a st = ⟨some .resolved, st, [], []⟩) := by
  refine ⟨?_, ?_, ?_⟩
  · intro text st log n
    induction n generalizing st with
    | zero =>
      intro h
      exact ⟨rfl, rfl, rfl, rfl⟩
    | succ n ih =>
      intro h
      have hd := download_status text 500 0 st h (by decide)
      have hst1 : existsFile
          (unlinkFile (writeFile st (safeName text) 0) (safeName text))
          (safeName text) = false := by
        simp [existsFile_unlinkFile]
      have hk := ih _ hst1
      rw [List.replicate_succ]
      simp only [processLine, hd, classify_500]
      refine ⟨hk.1, hk.2.1, ?_, ?_⟩
      · rw [List.replicate_succ]
        simp [hk.2.2.1]
      · simp [hk.2.2.2]
  · intro c hc hc5 hne text st log h
    have hcl := classify_5xx_other_none c hc hc5 hne
    have hd := download_status text c 0 st h (by omega)
    simp [processLine, hd, hcl]
  · intro text a st
    by_cases hex : existsFile st (text ++ ".mp3") = true
    · simp [fetchAudio2, hex]
    · simp [fetchAudio2, hex]

theorem server_backoff_only_500_witness :
    existsFile [] (safeName "x") = false
    ∧ (processLine "x" (List.replicate 2 (FetchResult.response 500 0)) [] []).waits
        = [serverWait, serverWait]
    ∧ (processLine "x" (List.replicate 2 (FetchResult.response 500 0)) [] []).failLog
        = [] := by
  have h := server_backoff_only_500.1 "x" [] [] 2 (by decide)
  refine ⟨by decide, ?_, h.2.1⟩
  rw [h.2.2.1]
  decide

/-- C2: a fetch performed for a line with no artifact yet that ends in any
non-success outcome — a non-200 status or a network error — leaves no file
(not even an empty one) under the line's cache key once the rejection is
surfaced; in the game4 variant no file is created at all in those cases. -/
theorem failed_fetch_leaves_no_artifact (text : String) (st : Store)
    (h : existsFile st (safeName text) = false) :
    (∀ c sz, c ≠ 200 →
        (download text (.response c sz) st).1
            = DlResult.rejected ("HTTP " ++ Nat.repr c)
        ∧ existsFile (download text (.response c sz) st).2 (safeName text)
            = false)
    ∧ (∀ msg,
        (download text (.netError msg) st).1 = DlResult.rejected msg
        ∧ existsFile (download text (.netError msg) st).2 (safeName text)
            = false)
    ∧ (∀ (a c sz : Nat), c ≠ 429 → c ≠ 200 →
        (fetchAudio2 text [.response c sz] a st).store = st)
    ∧ (∀ (a : Nat) (msg : String),
        (fetchAudio2 text [.netError msg] a st).store = st) := by
  refine ⟨?_, ?_, ?_, ?_⟩
  · intro c sz hc
    rw [download_status text c sz st h hc]
    simp [existsFile_unlinkFile]
  · intro msg
    rw [download_net text msg st h]
    simp [existsFile_unlinkFile]
  · intro a c sz hc429 hc200
    by_cases hex : existsFile st (text ++ ".mp3") = true
    · simp [fetchAudio2, hex]
    · simp [fetchAudio2, hex, hc429, hc200]
  · intro a msg
    by_cases hex : existsFile st (text ++ ".mp3") = true
    · simp [fetchAudio2, hex]
    · simp [fetchAudio2, hex]

theorem failed_fetch_leaves_no_artifact_witness :
    existsFile [] (safeName "Test.") = false
    ∧ (download "Test." (.response 404 0) []).1
        = DlResult.rejected ("HTTP " ++ Nat.repr 404)
    ∧ existsFile (download "Test." (.response 404 0) []).2 (safeName "Test.")
        = false
    ∧ (fetchAudio2 "Test." [.response 404 0] 1 []).store = [] := by
  have h := failed_fetch_leaves_no_artifact "Test." [] (by decide)
  have h1 := h.1 404 0 (by decide)
  exact ⟨by decide, h1.1, h1.2, h.2.2.1 1 404 0 (by decide) (by decide)⟩

/-- C3: if two distinct lines of the source share the same normalized key
(trim + lowercase), the `part_001` dispatch loop enqueues at most one line
with that key — so at most one is handed to the fetch pipeline — and the
failure log of the whole run contains at most one entry with that key, for
any fetch capability. -/
theorem duplicate_key_single_dispatch (lines : List String) (t1 t2 : String)
    (_h1 : t1 ∈ lines) (_h2 : t2 ∈ lines) (_h3 : t1 ≠ t2)
    (_h4 : normKey t1 = normKey t2) :
    (dedupDispatch [] lines).countP (fun l => jsToLower l == normKey t1) ≤ 1
    ∧ ∀ (oracle : String → List FetchResult) (st0 : Store),
        (run001 oracle lines st0).failLog.countP
            (fun l => jsToLower l == normKey t1) ≤ 1 := by
  have hnd := (dedupDispatch_nodup lines []).1
  have hd1 := countP_le_one_of_nodup_map (dedupDispatch [] lines) jsToLower hnd
    (normKey t1)
  refine ⟨hd1, ?_⟩
  intro oracle st0
  have hle := runLines_countP_le oracle (fun l => jsToLower l == normKey t1)
    (dedupDispatch [] lines) ⟨st0, [], 0⟩
  unfold run001
  refine le_trans hle ?_
  simpa using hd1

theorem duplicate_key_single_dispatch_witness :
    (dedupDispatch [] ["Hello", " hello "]).countP
        (fun l => jsToLower l == normKey "Hello") ≤ 1
    ∧ (run001 succOracle ["Hello", " hello "] []).failLog.countP
        (fun l => jsToLower l == normKey "Hello") ≤ 1 := by
  have h := duplicate_key_single_dispatch ["Hello", " hello "] "Hello" " hello "
    (by decide) (by decide) (by decide) (by decide)
  exact ⟨h.1, h.2 succOracle []⟩

/-- C5: after a first run in which every fetch succeeds, a second run of the
orchestrator over the same line source, starting from the store the first
run produced, issues zero HTTP requests — the `newLines` filter removes
every line. -/
theorem second_run_dispatches_nothing (oracle : String → List FetchResult)
    (lines : List String) (st0 : Store)
    (hsucc : ∀ l, ∃ sz, oracle l = [.response 200 sz]) :
    (runMain oracle lines ((runMain oracle lines st0).store)).fetches = 0 := by
  have hall : ∀ l ∈ lines,
      existsFile (runMain oracle lines st0).store (safeName l) = true := by
    intro l hl
    unfold runMain
    by_cases hex : existsFile st0 (safeName l) = true
    · exact runLines_success_mono oracle hsucc _ ⟨st0, [], 0⟩ _ hex
    · rw [Bool.not_eq_true] at hex
      refine runLines_success_covers oracle hsucc _ ⟨st0, [], 0⟩ l ?_
      exact List.mem_filter.mpr ⟨hl, by simp [hex]⟩
  have hnil : lines.filter
      (fun l => !existsFile (runMain oracle lines st0).store (safeName l)) = [] := by
    rw [List.filter_eq_nil_iff]
    intro a ha
    simp [hall a ha]
  conv_lhs => rw [runMain]
  rw [hnil]
  rfl

theorem second_run_dispatches_nothing_witness :
    (runMain succOracle ["a", "b"]
        ((runMain succOracle ["a", "b"] []).store)).fetches = 0 :=
  second_run_dispatches_nothing succOracle ["a", "b"] [] (fun _ => ⟨7, rfl⟩)

/-- C6: a line occurring once in the source, whose cache key no other line
shares, with no pre-existing artifact, and whose fetch answers 404: after
the run the store has no file under that key, the failure log contains the
line's text exactly once, and the line's processing performed a single
request with no retry wait before ending in the terminal failed state. -/
theorem client_error_terminal_logged_once (oracle : String → List FetchResult)
    (lines : List String) (st0 : Store) (text : String)
    (h1 : lines.count text = 1)
    (h2 : ∀ l ∈ lines, l ≠ text → safeName l ≠ safeName text)
    (h3 : existsFile st0 (safeName text) = false)
    (h4 : oracle text = [.response 404 0]) :
    (runMain oracle lines st0).failLog.count text = 1
    ∧ existsFile (runMain oracle lines st0).store (safeName text) = false
    ∧ ∀ (st : Store) (log : List String),
        existsFile st (safeName text) = false →
        (processLine text (oracle text) st log).result = LineResult.failed
        ∧ (processLine text (oracle text) st log).fetches = 1
        ∧ (processLine text (oracle text) st log).waits = [] := by
  have hkeys : ∀ l ∈ lines.filter (fun l => !existsFile st0 (safeName l)),
      l ≠ text → safeName l ≠ safeName text := by
    intro l hl
    exact h2 l (List.mem_filter.mp hl).1
  have hrun := runLines_404 oracle text h4
    (lines.filter (fun l => !existsFile st0 (safeName l))) ⟨st0, [], 0⟩ h3 hkeys
  have hcnt : (lines.filter (fun l => !existsFile st0 (safeName l))).count text
      = 1 := by
    rw [List.count_filter (by simp [h3])]
    exact h1
  refine ⟨?_, ?_, ?_⟩
  · rw [runMain]
    rw [hrun.1, hcnt]
    simp
  · rw [runMain]
    exact hrun.2
  · intro st log hst
    rw [h4, processLine_404 text st log hst]
    exact ⟨rfl, rfl, rfl⟩

theorem client_error_terminal_logged_once_witness :
    (runMain oracle404 ["good", "bad"] []).failLog.count "bad" = 1
    ∧ existsFile (runMain oracle404 ["good", "bad"] []).store (safeName "bad")
        = false := by
  have h := client_error_terminal_logged_once oracle404 ["good", "bad"] [] "bad"
    (by decide) (by decide) (by decide) (by decide)
  exact ⟨h.1, h.2.1⟩

/-- C7: no schedule admits more than `concurrency` simultaneous fetches —
every group the `part_002` loop awaits has at most `concurrency` members,
and every state the bounded queue can reach has at most `concurrency`
running tasks, since admission is guarded by the in-flight count. -/
theorem inflight_never_exceeds_concurrency :
    (∀ (lines : List String), ∀ g ∈ groupLoop lines, g.length ≤ concurrency)
    ∧ (∀ (n : Nat) (s : QState), QReach n s → s.running ≤ concurrency) := by
  constructor
  · intro lines g hg
    exact groupLoop_length_le lines.length lines le_rfl g hg
  · intro n s h
    induction h with
    | refl => simp [concurrency]
    | tail hab hbc ih =>
      cases hbc with
      | start p r d hr hp =>
        simp only [concurrency] at hr ⊢
        omega
      | complete p r d hr =>
        simp only [concurrency] at ih ⊢
        omega

theorem inflight_never_exceeds_concurrency_witness :
    (["a", "b", "c"] ∈ groupLoop ["a", "b", "c", "d"]
      ∧ (["a", "b", "c"] : List String).length ≤ concurrency)
    ∧ (⟨0, 1, 0⟩ : QState).running ≤ concurrency := by
  have he : groupLoop ["a", "b", "c", "d"] = ["a", "b", "c"] :: groupLoop ["d"] := by
    rw [groupLoop]
    rw [if_neg (by decide)]
    rfl
  have hmem : ["a", "b", "c"] ∈ groupLoop ["a", "b", "c", "d"] := by
    rw [he]
    exact List.mem_cons_self _ _
  refine ⟨⟨hmem, ?_⟩, ?_⟩
  · exact inflight_never_exceeds_concurrency.1 ["a", "b", "c", "d"] _ hmem
  · exact inflight_never_exceeds_concurrency.2 1 ⟨0, 1, 0⟩
      (Relation.ReflTransGen.single
        (QStep.start 1 0 0 (by simp [concurrency]) (by simp)))

/-- C10: the game4 `fetchAudio` only ever settles by resolving — no input
text, store, or sequence of fetch outcomes can make it reject — it performs
no failure-log append whatsoever, and as soon as some attempt's outcome is
anything other than a 429 the promise does resolve. -/
theorem fetchAudio_never_rejects :
    (∀ (text : String) (atts : List FetchResult) (a : Nat) (st : Store)
        (r : PResult),
        (fetchAudio2 text atts a st).result = some r → r = PResult.resolved)
    ∧ (∀ (text : String) (atts : List FetchResult) (a : Nat) (st : Store),
        (fetchAudio2 text atts a st).failAppends = [])
    ∧ (∀ (text : String) (atts : List FetchResult) (a : Nat) (st : Store),
        (∃ x ∈ atts, is429 x = false) →
        (fetchAudio2 text atts a st).result = some PResult.resolved) := by
  refine ⟨?_, ?_, ?_⟩
  · intro text atts
    induction atts with
    | nil =>
      intro a st r h
      simp [fetchAudio2] at h
    | cons x rest ih =>
      intro a st r h
      by_cases hex : existsFile st (text ++ ".mp3") = true
      · simp [fetchAudio2, hex] at h
        exact h.symm
      · cases x with
        | response code size =>
          by_cases h429 : code = 429
          · subst h429
            simp [fetchAudio2, hex] at h
            exact ih (a + 1) st r h
          · by_cases h200 : code = 200
            · subst h200
              simp [fetchAudio2, hex] at h
              exact h.symm
            · simp [fetchAudio2, hex, h429, h200] at h
              exact h.symm
        | netError msg =>
          simp [fetchAudio2, hex] at h
          exact h.symm
  · intro text atts
    induction atts with
    | nil =>
      intro a st
      rfl
    | cons x rest ih =>
      intro a st
      by_cases hex : existsFile st (text ++ ".mp3") = true
      · simp [fetchAudio2, hex]
      · cases x with
        | response code size =>
          by_cases h429 : code = 429
          · subst h429
            simp [fetchAudio2, hex]
            exact ih (a + 1) st
          · by_cases h200 : code = 200
            · subst h200
              simp [fetchAudio2, hex]
            · simp [fetchAudio2, hex, h429, h200]
        | netError msg =>
          simp [fetchAudio2, hex]
  · intro text atts
    induction atts with
    | nil =>
      intro a st h
      rcases h with ⟨x, hx, _⟩
      cases hx
    | cons x rest ih =>
      intro a st h
      by_cases hex : existsFile st (text ++ ".mp3") = true
      · simp [fetchAudio2, hex]
      · cases x with
        | response code size =>
          by_cases h429 : code = 429
          · subst h429
            have hrest : ∃ y ∈ rest, is429 y = false := by
              rcases h with ⟨y, hy, hy429⟩
              rcases List.mem_cons.mp hy with rfl | hy
              · exact absurd hy429 (by simp [is429])
              · exact ⟨y, hy, hy429⟩
            simp [fetchAudio2, hex]
            exact ih (a + 1) st hrest
          · by_cases h200 : code = 200
            · subst h200
              simp [fetchAudio2, hex]
            · simp [fetchAudio2, hex, h429, h200]
        | netError msg =>
          simp [fetchAudio2, hex]

theorem fetchAudio_never_rejects_witness :
    (fetchAudio2 "hi" [.response 404 0] 1 []).result = some PResult.resolved
    ∧ (fetchAudio2 "hi" [.response 404 0] 1 []).failAppends = [] := by
  refine ⟨?_, fetchAudio_never_rejects.2.1 "hi" [.response 404 0] 1 []⟩
  exact fetchAudio_never_rejects.2.2 "hi" [.response 404 0] 1 []
    ⟨.response 404 0, by simp, by decide⟩

end TTSGen
